import Mathlib

/-!
Verification development for the `adapt-authoring-assets` module: a shallow
embedding of the asset-management core (local repository path handling,
the asset lifecycle operations `insert` / `update` / `delete` on the
`Assetsmodule`, thumbnail generation, metadata extraction and the
thumbnail-regeneration housekeeping scan), together with theorems about
the embedded operations.

Conventions used throughout the embedding:
* JavaScript promises/`async` functions returning a value or throwing are
  embedded as `Except Err` results, paired with the post-state.
* The filesystem is an association list from absolute path strings to an
  abstract content token (`Nat`); only presence and identity of contents
  matter to the properties proved here.
* External tool invocations (ffmpeg/ffprobe) and injected I/O faults are
  supplied by an `Env` oracle, keyed by the resolved path they act on.
* The external persistence collaborator (`super.insert` / `super.update` /
  `super.delete` of `AbstractApiModule`) is modelled as a record list with
  merge-update semantics, per its interface description (one record per
  asset keyed by id, patch-style updates).
-/

deriving instance DecidableEq for Except

namespace Assets

/-! ## Character-level string helpers (POSIX path semantics) -/

/-- Split a character list on a separator character. -/
def chSplit (sep : Char) : List Char → List (List Char)
  | [] => [[]]
  | c :: cs =>
    match chSplit sep cs with
    | [] => [[]]
    | g :: gs => if c = sep then [] :: g :: gs else (c :: g) :: gs

/-- Split a string on a separator character. -/
def splitStr (sep : Char) (s : String) : List String :=
  (chSplit sep s.toList).map (fun l => String.mk l)

/-- Whether a path string is absolute (`path.isAbsolute`, POSIX). -/
def isAbsoluteS (s : String) : Bool :=
  match s.toList with
  | '/' :: _ => true
  | _ => false

/-- Path segments of a string: split on `/`, dropping empty and `.` segments. -/
def splitSegs (s : String) : List String :=
  (splitStr '/' s).filter (fun x => !(x == "") && !(x == "."))

/-- One step of POSIX normalisation: `..` pops the last segment (a no-op at
the root, matching `path.resolve` on absolute bases), any other segment is
appended. -/
def normStep (acc : List String) (seg : String) : List String :=
  if seg = ".." then acc.dropLast else acc ++ [seg]

/-- Segments of `path.resolve(base, p)` for a relative `p`. -/
def resolveSegs (base p : String) : List String :=
  (splitSegs base ++ splitSegs p).foldl normStep []

/-- Render an absolute path from its segments. -/
def joinAbs : List String → String
  | [] => "/"
  | [s] => "/" ++ s
  | s :: rest => "/" ++ s ++ joinAbs rest

/-- `path.resolve(base, p)` for a relative `p` against an absolute base. -/
def pathResolve (base p : String) : String :=
  joinAbs (resolveSegs base p)

/-- Directory part of an absolute path (`path.dirname`). -/
def dirnameS (s : String) : String :=
  joinAbs (splitSegs s).dropLast

/-- Final segment of a path (`path.basename`). -/
def basenameS (s : String) : String :=
  (splitSegs s).getLastD ""

/-- `path.join` of an absolute directory and a relative name, as used for
the temporary thumbnail-source location. -/
def pathJoin (a b : String) : String :=
  joinAbs (splitSegs a ++ splitSegs b)

/-- Boolean string-prefix test on character lists. -/
def chPre : List Char → List Char → Bool
  | [], _ => true
  | _ :: _, [] => false
  | a :: as, b :: bs => a = b && chPre as bs

/-- Whether `s` starts with `p` (`String.prototype.startsWith`, used for
the `.svg` extension check). -/
def strStarts (p s : String) : Bool := chPre p.toList s.toList

/-- `path.extname`: the suffix of the basename from its last dot, empty for
dotfiles and extensionless names. -/
def extnameS (s : String) : String :=
  let b := (chSplit '/' s.toList).getLastD []
  match chSplit '.' b with
  | [] => ""
  | [_] => ""
  | p0 :: rest =>
    if p0 = [] ∧ rest.length = 1 then ""
    else String.mk ('.' :: rest.getLastD [])

/-- Whether the resolved path lies below the given root, segment-wise. -/
def underRoot (root p : String) : Bool :=
  (splitSegs p).take (splitSegs root).length == splitSegs root

/-- The `type` half of a MIME string (`file.mimetype.split('/')[0]`). -/
def mimeTypeOf (m : String) : String := (splitStr '/' m).getD 0 ""

/-- The `subtype` half of a MIME string (`file.mimetype.split('/')[1]`;
an absent half is the empty string, standing for JS `undefined`). -/
def mimeSubtypeOf (m : String) : String := (splitStr '/' m).getD 1 ""

/-! ## Error taxonomy (`App.instance.errors`) -/

/-- Error values thrown by the embedded operations.  Two errors compare
equal exactly when their JS `code` properties compare equal. -/
inductive Err where
  | NOT_FOUND
  | INVALID_PARAMS
  | REPO_NOT_FOUND
  | FUNC_DISABLED
  | MISSING_ASSETS
  /-- A JS `TypeError` from passing `undefined` where a string is required. -/
  | jsTypeError
  /-- `GENERATE_THUMB_FAIL` wrapping an ffmpeg tool error (`AbstractAsset`). -/
  | genThumbFail (cause : Nat)
  /-- A raw ffmpeg error rejected unwrapped (`Assetsmodule.generateThumbnail`). -/
  | ffmpegRaw (cause : Nat)
  /-- An injected I/O fault (a non-`ENOENT` `stat`/`rm`/write-stream error). -/
  | ioErr (n : Nat)
  /-- A promise that never settles — either no callback was registered, or
  a throw/rejection at an `await` inside an async promise executor bypassed
  `resolve`/`reject`.  Distinguished so the embedding stays total: every
  `catch` passes it through untouched and runs no handler, since an
  unsettled promise can trigger no continuation. -/
  | hang
deriving DecidableEq

/-! ## Filesystem, records, environment -/

/-- The filesystem: absolute path strings mapped to an abstract content
token.  Only presence and content identity are relevant. -/
abbrev Fs := List (String × Nat)

/-- Whether a file exists at the path. -/
def Fs.hasFile (fs : Fs) (p : String) : Bool := fs.any (fun kv => kv.1 == p)

/-- Content at a path, if present. -/
def Fs.lookupF (fs : Fs) (p : String) : Option Nat :=
  (fs.find? (fun kv => kv.1 == p)).map (fun kv => kv.2)

/-- Create or overwrite the file at a path. -/
def Fs.writeF (fs : Fs) (p : String) (c : Nat) : Fs :=
  (p, c) :: fs.filter (fun kv => !(kv.1 == p))

/-- Remove the file at a path. -/
def Fs.removeF (fs : Fs) (p : String) : Fs :=
  fs.filter (fun kv => !(kv.1 == p))

/-- An asset database record.  Optional fields stand for JS properties that
may be absent (`undefined`); `title` stands in for the opaque non-file
fields a client may set. -/
structure Rec where
  _id : String := ""
  repo : Option String := none
  path : Option String := none
  type : Option String := none
  subtype : Option String := none
  size : Option Nat := none
  hasThumb : Bool := false
  resolution : Option String := none
  duration : Option Nat := none
  title : Option String := none
deriving DecidableEq

/-- An uploaded file handed over by the upload middleware. -/
structure FormidableFile where
  filepath : String
  mimetype : String
  originalFilename : String
  size : Nat
deriving DecidableEq

/-- Data returned by a successful `ffprobe` run. -/
structure ProbeData where
  width : Option Nat := none
  height : Option Nat := none
  duration : Option Nat := none
  /-- `data.format.size` (used by `AbstractAsset.generateMetadata`). -/
  fsize : Nat := 0
deriving DecidableEq

/-- The recognised configuration options. -/
structure Config where
  assetDir : String
  thumbnailDir : String
  thumbnailExt : String
  thumbnailWidth : Nat := 200
  defaultAssetRepository : String := "local"
deriving DecidableEq

/-- Oracle for external effects, keyed by the resolved path acted on:
injected non-`ENOENT` `stat` faults, `rm` faults, the settled result of a
write-stream promise, the ffmpeg thumbnail render result (`none` means
success, `some n` a tool error with cause `n`), and the ffprobe result. -/
structure Env where
  statErr : String → Option Err := fun _ => none
  rmErr : String → Option Err := fun _ => none
  writeRes : String → Option Err := fun _ => none
  ffmpegRes : String → Option Nat := fun _ => none
  probeRes : String → Except Err ProbeData := fun _ => Except.error Err.NOT_FOUND

/-- Mutable world state: filesystem, database collection and the log. -/
structure St where
  fs : Fs
  db : List Rec
  logs : List String
deriving DecidableEq

/-- Pick the first `some` (JS `??` / merge precedence). -/
def orD {α : Type} (o : Option α) (d : α) : α := o.getD d

/-- Merge an optional patch field over an existing optional field
(`Object.assign` / MongoDB `$set` semantics: absent keys left untouched). -/
def updField {α : Type} (patch old : Option α) : Option α :=
  match patch with
  | some v => some v
  | none => old

/-! ## External persistence collaborator (`AbstractApiModule` CRUD)

The document database layer is an external collaborator (out of the core's
scope); it persists and queries asset records by opaque identifier, with
patch-style updates.  It is embedded as list operations on `St.db`. -/

/-- A patch handed to `super.update` (only `some` fields are written). -/
structure Patch where
  path : Option String := none
  repo : Option String := none
  type : Option String := none
  subtype : Option String := none
  size : Option Nat := none
  hasThumb : Option Bool := none
  resolution : Option String := none
  duration : Option Nat := none
  title : Option String := none
deriving DecidableEq

/-- Apply a patch to a record. -/
def Rec.applyPatch (r : Rec) (p : Patch) : Rec :=
  { r with
    path := updField p.path r.path
    repo := updField p.repo r.repo
    type := updField p.type r.type
    subtype := updField p.subtype r.subtype
    size := updField p.size r.size
    hasThumb := (p.hasThumb).getD r.hasThumb
    resolution := updField p.resolution r.resolution
    duration := updField p.duration r.duration
    title := updField p.title r.title }

/-- Find a record by id. -/
def dbFind (db : List Rec) (idq : String) : Option Rec :=
  db.find? (fun r => r._id == idq)

/-- `super.update({_id}, patch)`: merge the patch into the matching record. -/
def dbUpdate (db : List Rec) (idq : String) (p : Patch) :
    Except Err (Rec × List Rec) :=
  match dbFind db idq with
  | none => Except.error Err.NOT_FOUND
  | some r =>
    let r2 := r.applyPatch p
    Except.ok (r2, db.map (fun x => if x._id == idq then r2 else x))

/-- `super.delete(query)`: remove and return the matching record. -/
def dbDelete (db : List Rec) (idq : String) : Except Err (Rec × List Rec) :=
  match dbFind db idq with
  | none => Except.error Err.NOT_FOUND
  | some r => Except.ok (r, db.filter (fun x => !(x._id == idq)))

/-- The client-supplied request data after the upload middleware has merged
form fields and the uploaded file into `req.apiData.data`. -/
structure InputData where
  path : Option String := none
  repo : Option String := none
  title : Option String := none
  file : Option FormidableFile := none

/-- `super.insert(data)`: create a provisional record with the supplied
non-file fields; the id is assigned by the persistence layer and passed
through here as `newId`. -/
def dbInsert (db : List Rec) (newId : String) (d : InputData) :
    Rec × List Rec :=
  let r : Rec := { _id := newId, path := d.path, repo := d.repo, title := d.title }
  (r, db ++ [r])

/-- The patch persisted by `super.update({_id}, data)` inside
`Assetsmodule.update` (the uploaded file object itself is not a schema
field and is not persisted). -/
def inputPatch (d : InputData) : Patch :=
  { path := d.path, repo := d.repo, title := d.title }

/-! ## `LocalAssetRepository` (local filesystem backend) -/

namespace LocalAssetRepository

/-- `resolvePath(filePath, options)`: an absolute input is returned
unchanged, a relative one is resolved against the cwd (default: the
repository root). -/
def resolvePath (cwd filePath : String) : String :=
  if isAbsoluteS filePath then filePath else pathResolve cwd filePath

/-- `ensureExists` on an already-resolved absolute path: `stat`, mapping
`ENOENT` to `NOT_FOUND` and rethrowing any other failure (injected via
`Env.statErr`). -/
def statCheck (env : Env) (fs : Fs) (p : String) : Except Err Unit :=
  match env.statErr p with
  | some e => Except.error e
  | none => if fs.hasFile p then Except.ok () else Except.error Err.NOT_FOUND

/-- `read(filePath, options)`: resolve, `ensureExists`, then hand back the
content (standing for the byte stream). -/
def readOp (env : Env) (st : St) (cwd filePath : String) : Except Err Nat :=
  let rp := resolvePath cwd filePath
  match statCheck env st.fs rp with
  | Except.error e => Except.error e
  | Except.ok _ => Except.ok ((st.fs.lookupF rp).getD 0)

/-- `write(inputStream, outputPath, options)`: resolve, ensure the parent
directory, then pipe the stream into a freshly-created file.  The file is
created as soon as the write stream opens; on a downstream failure the
promise rejects and the partially-written file (content token `0`) is left
behind. -/
def writeOp (env : Env) (st : St) (cwd : String) (content : Nat)
    (outputPath : String) : Except Err Unit × St :=
  let rp := resolvePath cwd outputPath
  match env.writeRes rp with
  | some e => (Except.error e, { st with fs := st.fs.writeF rp 0 })
  | none => (Except.ok (), { st with fs := st.fs.writeF rp content })

/-- `delete(filePath, options)`: `ensureExists` then `rm`, swallowing a
`NOT_FOUND` (a missing file is not an error) and propagating anything
else. -/
def deleteOp (env : Env) (st : St) (cwd filePath : String) :
    Except Err Unit × St :=
  let rp := resolvePath cwd filePath
  let inner : Except Err Unit × St :=
    match statCheck env st.fs rp with
    | Except.error e => (Except.error e, st)
    | Except.ok _ =>
      match env.rmErr rp with
      | some e => (Except.error e, st)
      | none => (Except.ok (), { st with fs := st.fs.removeF rp })
  match inner with
  | (Except.error e, st2) =>
    if e == Err.NOT_FOUND then (Except.ok (), st2) else (Except.error e, st2)
  | (Except.ok u, st2) => (Except.ok u, st2)

end LocalAssetRepository

/-- The metadata object produced by `getMetadata` / `generateMetadata`. -/
structure MetaPatch where
  resolution : Option String := none
  duration : Option Nat := none
  size : Option Nat := none
deriving DecidableEq

/-! ## `Assetsmodule` (asset lifecycle, `part_004` variant)

The module registers only the local repository; `getRepo` therefore
resolves the name `"local"` to the configured asset root and fails with
`REPO_NOT_FOUND` for anything else. -/

namespace Assetsmodule

/-- `getRepo(name)`, returning the root directory the repository resolves
relative paths against. -/
def getRepoRoot (cfg : Config) (name : String) : Except Err String :=
  if name == "local" then Except.ok cfg.assetDir else Except.error Err.REPO_NOT_FOUND

/-- `this.localResolve(p)`: the local repository's `resolvePath` with
`cwd` set to the thumbnail directory (`this.localOpts`). -/
def localResolve (cfg : Config) (p : String) : String :=
  LocalAssetRepository.resolvePath cfg.thumbnailDir p

/-- `this.localRead(p)`: local repository read with the thumbnail-directory
cwd. -/
def localRead (env : Env) (st : St) (cfg : Config) (p : String) : Except Err Nat :=
  LocalAssetRepository.readOp env st cfg.thumbnailDir p

/-- `this.localDelete(p)`: local repository delete with the
thumbnail-directory cwd. -/
def localDelete (env : Env) (st : St) (cfg : Config) (p : String) :
    Except Err Unit × St :=
  LocalAssetRepository.deleteOp env st cfg.thumbnailDir p

/-- `this.localExists(p)`: local repository `ensureExists` with the
thumbnail-directory cwd. -/
def localExists (env : Env) (st : St) (cfg : Config) (p : String) : Except Err Unit :=
  LocalAssetRepository.statCheck env st.fs (localResolve cfg p)

/-- The in-memory `assetData` object assembled by `updateAsset` and passed
to `generateThumbnail` / `getMetadata`. -/
structure AssetData where
  path : String
  repo : String
  size : Nat
  subtype : String
  type : String
  hasThumb : Bool := false
deriving DecidableEq

/-- View of a database record as the duck-typed argument the housekeeping
scan passes to `generateThumbnail` (records reached there were written by
`updateAsset` and carry these fields). -/
def recAssetData (r : Rec) : AssetData :=
  { path := r.path.getD "", repo := (r.repo).getD "", size := r.size.getD 0,
    subtype := r.subtype.getD "", type := r.type.getD "", hasThumb := r.hasThumb }

/-- The `hasThumb` flag as computed by `Assetsmodule.generateThumbnail`:
from the MIME `type` alone. -/
def hasThumbFlag (type : String) : Bool :=
  type == "image" || type == "video"

/-- The ffmpeg output location used by `generateThumbnail`:
`this.localResolve(assetData.path)`. -/
def genThumbOut (cfg : Config) (assetDataPath : String) : String :=
  localResolve cfg assetDataPath

/-- The mutation `generateThumbnail` applies first:
`assetData.hasThumb = assetData.type === 'image' || assetData.type === 'video'`. -/
def genAsset (a : AssetData) : AssetData :=
  { a with hasThumb := hasThumbFlag a.type }

/-- `generateThumbnail(assetData)`: set `assetData.hasThumb` from the type
(`genAsset`); for image/video, read the primary from its repository inside
a `new Promise(async (resolve, reject) => ...)` executor and render the
thumbnail to `localResolve(assetData.path)`.  Only the ffmpeg callbacks
settle the promise: a tool failure rejects with the raw ffmpeg error, but a
`getRepo` throw or a repository-read rejection happens at the `await`
inside the async executor, so the returned promise never settles
(`Err.hang`) and the rejection is unhandled.  Returns the updated
`assetData` alongside the outcome. -/
def generateThumbnail (env : Env) (cfg : Config) (a : AssetData) (st : St) :
    Except Err Unit × AssetData × St :=
  if (genAsset a).hasThumb = false then (Except.ok (), genAsset a, st)
  else
    match getRepoRoot cfg (genAsset a).repo with
    | Except.error _ => (Except.error Err.hang, genAsset a, st)
    | Except.ok root =>
      match LocalAssetRepository.statCheck env st.fs
          (LocalAssetRepository.resolvePath root (genAsset a).path) with
      | Except.error _ => (Except.error Err.hang, genAsset a, st)
      | Except.ok _ =>
        match env.ffmpegRes (genThumbOut cfg (genAsset a).path) with
        | some n => (Except.error (Err.ffmpegRaw n), genAsset a, st)
        | none =>
          (Except.ok (), genAsset a,
            { st with fs := st.fs.writeF (genThumbOut cfg (genAsset a).path) 1 })

/-- `getThumbPath(assetData)`: the local path serving and the housekeeping
existence check read the thumbnail from — record id plus the configured
thumbnail extension, resolved against the thumbnail directory.  (Database
records always carry `_id`, so the filename-derived fallback branch is not
taken.) -/
def getThumbPath (cfg : Config) (r : Rec) : String :=
  localResolve cfg (r._id ++ cfg.thumbnailExt)

/-- The metadata object assembled from a successful probe (`resolution`
when width and height are both reported, `duration` when reported). -/
def probedMeta (d : ProbeData) : MetaPatch :=
  { resolution :=
      match d.width, d.height with
      | some w, some h => some (Nat.repr w ++ "x" ++ Nat.repr h)
      | _, _ => none
    duration := d.duration }

/-- `getMetadata(assetData)`: `{}` for assets without thumbnail support; else
read the primary (propagating read failures) and `ffprobe` it — a probe
failure is logged and resolved as `undefined` (`Option.none`), a success
yields the `probedMeta` fields. -/
def getMetadata (env : Env) (cfg : Config) (a : AssetData) (st : St) :
    Except Err (Option MetaPatch) × St :=
  if a.hasThumb = false then (Except.ok (some {}), st)
  else
    match getRepoRoot cfg a.repo with
    | Except.error e => (Except.error e, st)
    | Except.ok root =>
      match LocalAssetRepository.statCheck env st.fs
          (LocalAssetRepository.resolvePath root a.path) with
      | Except.error e => (Except.error e, st)
      | Except.ok _ =>
        match env.probeRes (LocalAssetRepository.resolvePath root a.path) with
        | Except.error _ =>
          (Except.ok none, { st with logs := st.logs ++ ["METADATA_GEN_FAILED"] })
        | Except.ok d => (Except.ok (some (probedMeta d)), st)

/-- The patch `updateAsset` hands to `super.update`: the assembled
`assetData` fields plus whatever `Object.assign` merged in from
`getMetadata` (nothing when the probe resolved `undefined`). -/
def assetPatch (a : AssetData) (m : Option MetaPatch) : Patch :=
  { path := some a.path, repo := some a.repo, type := some a.type,
    subtype := some a.subtype, size := some a.size, hasThumb := some a.hasThumb,
    resolution := (m.map (fun x => x.resolution)).getD none,
    duration := (m.map (fun x => x.duration)).getD none }

/-- `Assetsmodule.delete(query)`: remove the database record first, then —
only when the deleted record carries a `repo` field — delete the primary
file from that repository and the thumbnail via `localDelete(doc.path)`,
swallowing a `NOT_FOUND` from that cleanup and propagating any other
failure.  A record without `path` would hit `path.isAbsolute(undefined)`
inside the `try`, raising a `TypeError`. -/
def moduleDelete (env : Env) (cfg : Config) (idq : String) (st : St) :
    Except Err Rec × St :=
  match dbDelete st.db idq with
  | Except.error e => (Except.error e, st)
  | Except.ok (doc, db2) =>
    let st2 := { st with db := db2 }
    match doc.repo with
    | none => (Except.ok doc, st2)
    | some rn =>
      let inner : Except Err Unit × St :=
        match getRepoRoot cfg rn with
        | Except.error e => (Except.error e, st2)
        | Except.ok root =>
          match doc.path with
          | none => (Except.error Err.jsTypeError, st2)
          | some p =>
            match LocalAssetRepository.deleteOp env st2 root p with
            | (Except.error e, st3) => (Except.error e, st3)
            | (Except.ok _, st3) => localDelete env st3 cfg p
      match inner with
      | (Except.ok _, st4) => (Except.ok doc, st4)
      | (Except.error e, st4) =>
        if e == Err.NOT_FOUND then (Except.ok doc, st4) else (Except.error e, st4)

/-- The `try` block of `updateAsset`: look up the target repository, copy
the upload into it at `` `${assetDoc._id}.${subtype}` `` (the `assetData`
object assembled there carries path/repo/size/subtype/type), delete the
temporary upload, generate the thumbnail, probe metadata and persist the
assembled fields via `super.update`. -/
def updateAssetBody (env : Env) (cfg : Config) (assetDoc : Rec)
    (f : FormidableFile) (st : St) : Except Err Rec × St :=
  match getRepoRoot cfg (orD assetDoc.repo cfg.defaultAssetRepository) with
  | Except.error e => (Except.error e, st)
  | Except.ok _root =>
    match localRead env st cfg f.filepath with
    | Except.error e => (Except.error e, st)
    | Except.ok c =>
      match LocalAssetRepository.writeOp env st cfg.assetDir c
          (assetDoc._id ++ "." ++ mimeSubtypeOf f.mimetype) with
      | (Except.error e, st1) => (Except.error e, st1)
      | (Except.ok _, st1) =>
        match localDelete env st1 cfg f.filepath with
        | (Except.error e, st2) => (Except.error e, st2)
        | (Except.ok _, st2) =>
          match generateThumbnail env cfg
              { path := assetDoc._id ++ "." ++ mimeSubtypeOf f.mimetype,
                repo := "local", size := f.size,
                subtype := mimeSubtypeOf f.mimetype,
                type := mimeTypeOf f.mimetype } st2 with
          | (Except.error e, _a2, st3) => (Except.error e, st3)
          | (Except.ok _, a2, st3) =>
            match getMetadata env cfg a2 st3 with
            | (Except.error e, st4) => (Except.error e, st4)
            | (Except.ok m, st4) =>
              match dbUpdate st4.db assetDoc._id (assetPatch a2 m) with
              | Except.error e => (Except.error e, st4)
              | Except.ok (r2, db2) => (Except.ok r2, { st4 with db := db2 })

/-- `updateAsset(assetDoc, file, options)`: with no uploaded file return the
record untouched; otherwise run the `try` block (`updateAssetBody`) — and on
any failure, if `deleteOnError` is set, first run `this.delete({_id})`
before rethrowing (a failure of that compensating delete replaces the
original error).  An unsettled awaited promise (`Err.hang`) suspends the
whole operation: the `catch` never runs, so it passes through with no
compensation. -/
def updateAsset (env : Env) (cfg : Config) (assetDoc : Rec)
    (file : Option FormidableFile) (deleteOnError : Bool) (st : St) :
    Except Err Rec × St :=
  match file with
  | none => (Except.ok assetDoc, st)
  | some f =>
    match updateAssetBody env cfg assetDoc f st with
    | (Except.ok r, st9) => (Except.ok r, st9)
    | (Except.error e, st9) =>
      if e == Err.hang then (Except.error e, st9)
      else if deleteOnError then
        match moduleDelete env cfg assetDoc._id st9 with
        | (Except.error e2, stA) => (Except.error e2, stA)
        | (Except.ok _, stA) => (Except.error e, stA)
      else (Except.error e, st9)

/-- `Assetsmodule.insert(data)`: persist the provisional record via
`super.insert`, then run the file handling with `deleteOnError` enabled;
the provisional `doc` is returned on success. -/
def moduleInsert (env : Env) (cfg : Config) (newId : String) (d : InputData)
    (st : St) : Except Err Rec × St :=
  let (doc, db2) := dbInsert st.db newId d
  match updateAsset env cfg doc d.file true { st with db := db2 } with
  | (Except.error e, st2) => (Except.error e, st2)
  | (Except.ok _, st2) => (Except.ok doc, st2)

/-- `Assetsmodule.update(query, data)`: discard any caller-supplied `path`
(`delete data.path`), apply the ordinary database update, then run the file
handling (without `deleteOnError`); the updated `doc` is returned. -/
def moduleUpdate (env : Env) (cfg : Config) (qid : String) (d : InputData)
    (st : St) : Except Err Rec × St :=
  let d2 := { d with path := none }
  match dbUpdate st.db qid (inputPatch d2) with
  | Except.error e => (Except.error e, st)
  | Except.ok (doc, db2) =>
    match updateAsset env cfg doc d2.file false { st with db := db2 } with
    | (Except.error e, st3) => (Except.error e, st3)
    | (Except.ok _, st3) => (Except.ok doc, st3)

/-- One item of the `regenerateThumbnails` scan: skip records without the
`hasThumb` flag; check the thumbnail's existence at `getThumbPath`; a
non-`NOT_FOUND` check failure is only logged; on `NOT_FOUND` fire
`generateThumbnail` with its rejection caught and logged (fire-and-forget —
its effects and its failure never surface to the scan).  When the
generation promise never settles (`Err.hang` — e.g. the primary file is
absent, so the read rejects inside the async executor), the `.catch(_log)`
handler never fires and nothing is logged. -/
def regenItem (env : Env) (cfg : Config) (st : St) (a : Rec) : St :=
  if a.hasThumb = false then st
  else
    match localExists env st cfg (getThumbPath cfg a) with
    | Except.ok _ => st
    | Except.error e =>
      if e != Err.NOT_FOUND then
        { st with logs := st.logs ++ ["THUMB_FAIL " ++ a._id] }
      else
        match generateThumbnail env cfg (recAssetData a) st with
        | (Except.ok _, _, st2) => st2
        | (Except.error e2, _, st2) =>
          if e2 == Err.hang then st2
          else { st2 with logs := st2.logs ++ ["THUMB_FAIL " ++ a._id] }

/-- `regenerateThumbnails()`: run the item action over every known record
with `Promise.allSettled` semantics — every item is processed, an item's
failure never stops the remaining ones. -/
def regenerateThumbnails (env : Env) (cfg : Config) (st : St)
    (assets : List Rec) : St :=
  assets.foldl (regenItem env cfg) st

end Assetsmodule

/-! ## `AbstractAsset` / `LocalAsset` (filesystem-wrapper variant)

The wrapper couples a database record with its filesystem operations; the
main asset wrapper resolves against the asset root, its `thumb` wrapper
against the thumbnail directory. -/

namespace AbstractAsset

/-- `getFileExtension(file)`: the MIME subtype, except for `svg+xml`
uploads where the original filename's extension is kept when it starts
with `.svg` and the literal `svg` is used otherwise. -/
def getFileExtension (f : FormidableFile) : String :=
  let subtype := mimeSubtypeOf f.mimetype
  let originalExtension := extnameS f.originalFilename
  if subtype == "svg+xml" then
    if strStarts ".svg" originalExtension then originalExtension else "svg"
  else subtype

/-- The new primary path assigned by `updateFile`:
`` `${this.data._id}.${this.getFileExtension(file)}` ``. -/
def newPath (idStr : String) (f : FormidableFile) : String :=
  idStr ++ "." ++ getFileExtension f

/-- The `hasThumb` flag assigned by `updateFile`:
`(type === 'image' && subtype !== 'svg+xml') || type === 'video'`. -/
def hasThumbFlag (type subtype : String) : Bool :=
  (type == "image" && !(subtype == "svg+xml")) || type == "video"

/-- The `thumb` wrapper's path: record id plus the configured thumbnail
extension, resolved against the thumbnail directory. -/
def thumbPath (cfg : Config) (idStr : String) : String :=
  LocalAssetRepository.resolvePath cfg.thumbnailDir (idStr ++ cfg.thumbnailExt)

/-- `LocalAsset.delete` on a plain wrapper (a thumb or temp-file wrapper,
whose data carries no `hasThumb`): `ensureExists` then `rm` on the
already-resolved path, swallowing `NOT_FOUND`. -/
def fileDeleteIdem (env : Env) (p : String) (st : St) : Except Err Unit × St :=
  let inner : Except Err Unit × St :=
    match LocalAssetRepository.statCheck env st.fs p with
    | Except.error e => (Except.error e, st)
    | Except.ok _ =>
      match env.rmErr p with
      | some e => (Except.error e, st)
      | none => (Except.ok (), { st with fs := st.fs.removeF p })
  match inner with
  | (Except.error e, st2) =>
    if e == Err.NOT_FOUND then (Except.ok (), st2) else (Except.error e, st2)
  | (Except.ok u, st2) => (Except.ok u, st2)

/-- `LocalAsset.delete` on the main asset wrapper: a wrapper without a
`path` returns immediately; otherwise `super.delete` first deletes the
thumbnail when `hasThumb` is set, then the primary file is removed, with
`NOT_FOUND` swallowed and any other failure propagated. -/
def assetDelete (env : Env) (cfg : Config) (r : Rec) (st : St) :
    Except Err Unit × St :=
  match r.path with
  | none => (Except.ok (), st)
  | some p0 =>
    let inner : Except Err Unit × St :=
      match
        (if r.hasThumb then fileDeleteIdem env (thumbPath cfg r._id) st
         else (Except.ok (), st)) with
      | (Except.error e, st1) => (Except.error e, st1)
      | (Except.ok _, st1) =>
        let rp := LocalAssetRepository.resolvePath cfg.assetDir p0
        match LocalAssetRepository.statCheck env st1.fs rp with
        | Except.error e => (Except.error e, st1)
        | Except.ok _ =>
          match env.rmErr rp with
          | some e => (Except.error e, st1)
          | none => (Except.ok (), { st1 with fs := st1.fs.removeF rp })
    match inner with
    | (Except.error e, st2) =>
      if e == Err.NOT_FOUND then (Except.ok (), st2) else (Except.error e, st2)
    | (Except.ok u, st2) => (Except.ok u, st2)

/-- `generateThumb(options)`: skip when `hasThumb` is unset; continue when
the thumbnail is absent or `regenerate` is requested; materialise the
primary to a temporary local copy (ffmpeg cannot always stream), render the
thumbnail to `thumb.path` — wrapping a tool error in
`GENERATE_THUMB_FAIL` — and delete the temporary copy in a `finally`
(whose own failure replaces the pending result, per JS semantics).  A
record whose type is neither image nor video but whose flag is set would
leave the awaited promise unsettled (`Err.hang`); the `await` then never
completes, so the `finally` cleanup never runs either. -/
def generateThumb (env : Env) (cfg : Config) (r : Rec) (regenerate : Bool)
    (st : St) : Except Err Unit × St :=
  if r.hasThumb = false then (Except.ok (), st)
  else
    let tp := thumbPath cfg r._id
    let checkOk : Bool :=
      match LocalAssetRepository.statCheck env st.fs tp with
      | Except.ok _ => true
      | Except.error _ => false
    if checkOk && !regenerate then (Except.ok (), st)
    else
      match r.path with
      | none => (Except.error Err.jsTypeError, st)
      | some p0 =>
        let srcP := LocalAssetRepository.resolvePath cfg.assetDir p0
        let tempP := pathJoin (dirnameS tp) (basenameS srcP)
        match LocalAssetRepository.statCheck env st.fs srcP with
        | Except.error e => (Except.error e, st)
        | Except.ok _ =>
          let c := (st.fs.lookupF srcP).getD 0
          match LocalAssetRepository.writeOp env st "/" c tempP with
          | (Except.error e, stW) => (Except.error e, stW)
          | (Except.ok _, stW) =>
            if r.type == some "image" || r.type == some "video" then
              match env.ffmpegRes tp with
              | some n =>
                match fileDeleteIdem env tempP stW with
                | (Except.error e2, stG) => (Except.error e2, stG)
                | (Except.ok _, stG) => (Except.error (Err.genThumbFail n), stG)
              | none =>
                match fileDeleteIdem env tempP { stW with fs := stW.fs.writeF tp 1 } with
                | (Except.error e2, stG) => (Except.error e2, stG)
                | (Except.ok _, stG) => (Except.ok (), stG)
            else (Except.error Err.hang, stW)

/-- The metadata object `generateMetadata` builds from a successful probe:
`resolution` when width and height are both reported, `duration` only for
non-image assets, `size` always. -/
def probedMetaLib (r : Rec) (d : ProbeData) : MetaPatch :=
  { resolution :=
      match d.width, d.height with
      | some w, some h => some (Nat.repr w ++ "x" ++ Nat.repr h)
      | _, _ => none
    duration := if r.type == some "image" then none else d.duration
    size := some d.fsize }

/-- `generateMetadata()`: `{}` for assets without thumbnail support; else
`ffprobe` the primary path directly — a tool failure is logged and resolved
as `{}`, a success yields the `probedMetaLib` fields.  The promise never
rejects. -/
def generateMetadata (env : Env) (cfg : Config) (r : Rec) (st : St) :
    Except Err MetaPatch × St :=
  if r.hasThumb = false then (Except.ok {}, st)
  else
    match env.probeRes (LocalAssetRepository.resolvePath cfg.assetDir ((r.path).getD "")) with
    | Except.error _ =>
      (Except.ok {}, { st with logs := st.logs ++ ["METADATA_GEN_FAILED"] })
    | Except.ok d => (Except.ok (probedMetaLib r d), st)

/-- `setData` merge of the metadata object into the record
(`Object.assign`: only present keys overwrite). -/
def applyMeta (r : Rec) (m : MetaPatch) : Rec :=
  { r with resolution := updField m.resolution r.resolution
           duration := updField m.duration r.duration
           size := updField m.size r.size }

/-- The record after `updateFile`'s `setData` of the new path / repo /
size / subtype / type / `hasThumb` fields. -/
def updData (r : Rec) (f : FormidableFile) : Rec :=
  { r with path := some (newPath r._id f), size := some f.size,
           subtype := some (mimeSubtypeOf f.mimetype),
           type := some (mimeTypeOf f.mimetype),
           hasThumb := hasThumbFlag (mimeTypeOf f.mimetype) (mimeSubtypeOf f.mimetype) }

/-- Everything `updateFile(file)` does before the metadata step: delete the
old primary (and thumbnail) via `this.delete()`, assign the new fields
(`updData`), copy the upload into place, delete the temporary upload and
generate the thumbnail (with `regenerate` set). -/
def updateFilePre (env : Env) (cfg : Config) (r : Rec) (f : FormidableFile)
    (st : St) : Except Err Rec × St :=
  match assetDelete env cfg r st with
  | (Except.error e, st1) => (Except.error e, st1)
  | (Except.ok _, st1) =>
    match LocalAssetRepository.statCheck env st1.fs
        (LocalAssetRepository.resolvePath cfg.assetDir f.filepath) with
    | Except.error e => (Except.error e, st1)
    | Except.ok _ =>
      match LocalAssetRepository.writeOp env st1 cfg.assetDir
          ((st1.fs.lookupF (LocalAssetRepository.resolvePath cfg.assetDir f.filepath)).getD 0)
          (newPath r._id f) with
      | (Except.error e, st2) => (Except.error e, st2)
      | (Except.ok _, st2) =>
        match fileDeleteIdem env
            (LocalAssetRepository.resolvePath cfg.assetDir f.filepath) st2 with
        | (Except.error e, st3) => (Except.error e, st3)
        | (Except.ok _, st3) =>
          match generateThumb env cfg (updData r f) true st3 with
          | (Except.error e, st4) => (Except.error e, st4)
          | (Except.ok _, st4) => (Except.ok (updData r f), st4)

/-- `updateFile(file)`: the pre-metadata sequence followed by
`this.setData(await this.generateMetadata(...))`. -/
def updateFile (env : Env) (cfg : Config) (r : Rec) (f : FormidableFile)
    (st : St) : Except Err Rec × St :=
  match updateFilePre env cfg r f st with
  | (Except.error e, st2) => (Except.error e, st2)
  | (Except.ok r2, st2) =>
    match generateMetadata env cfg r2 st2 with
    | (Except.error e, st3) => (Except.error e, st3)
    | (Except.ok m, st3) => (Except.ok (applyMeta r2 m), st3)

end AbstractAsset

/-! ## `Assetsmodule` wrappers of the filesystem-wrapper variant -/

namespace LibModule

/-- A patch carrying every field of a record, as produced by passing the
whole `updateData` object to `super.update`. -/
def recFullPatch (r : Rec) : Patch :=
  { path := r.path, repo := r.repo, type := r.type, subtype := r.subtype,
    size := r.size, hasThumb := some r.hasThumb, resolution := r.resolution,
    duration := r.duration, title := r.title }

/-- `Assetsmodule.delete` (wrapper variant): remove the record, then run
`asset.delete()` and `asset.thumb.delete()` (both idempotent towards
missing files). -/
def moduleDelete (env : Env) (cfg : Config) (qid : String) (st : St) :
    Except Err Rec × St :=
  match dbDelete st.db qid with
  | Except.error e => (Except.error e, st)
  | Except.ok (doc, db2) =>
    let st2 := { st with db := db2 }
    match AbstractAsset.assetDelete env cfg doc st2 with
    | (Except.error e, st3) => (Except.error e, st3)
    | (Except.ok _, st3) =>
      match AbstractAsset.fileDeleteIdem env (AbstractAsset.thumbPath cfg doc._id) st3 with
      | (Except.error e, st4) => (Except.error e, st4)
      | (Except.ok _, st4) => (Except.ok doc, st4)

/-- `Assetsmodule.insert` (wrapper variant): persist the provisional
record, run `updateFile` on it and persist the returned update data; on
any failure delete the record (and whatever files the deleted record names)
before rethrowing — a failure of that compensating delete replaces the
original error.  An insert without a file dies with a `TypeError` inside
`updateFile` (`file.mimetype` of `undefined`). -/
def moduleInsert (env : Env) (cfg : Config) (newId : String) (d : InputData)
    (st : St) : Except Err Rec × St :=
  let (doc, db2) := dbInsert st.db newId d
  let st1 := { st with db := db2 }
  let attempt : Except Err Rec × St :=
    match d.file with
    | none => (Except.error Err.jsTypeError, st1)
    | some f =>
      match AbstractAsset.updateFile env cfg doc f st1 with
      | (Except.error e, st2) => (Except.error e, st2)
      | (Except.ok r2, st2) =>
        match dbUpdate st2.db doc._id (recFullPatch r2) with
        | Except.error e => (Except.error e, st2)
        | Except.ok (r3, db3) => (Except.ok r3, { st2 with db := db3 })
  match attempt with
  | (Except.ok r, stF) => (Except.ok r, stF)
  | (Except.error e, stF) =>
    if e == Err.hang then (Except.error e, stF)
    else
      match moduleDelete env cfg doc._id stF with
      | (Except.error e2, stG) => (Except.error e2, stG)
      | (Except.ok _, stG) => (Except.error e, stG)

/-- `Assetsmodule.update` (wrapper variant): apply the ordinary database
update; with no uploaded file return the updated record as-is, otherwise
run `updateFile` and persist its result. -/
def moduleUpdate (env : Env) (cfg : Config) (qid : String) (d : InputData)
    (st : St) : Except Err Rec × St :=
  match dbUpdate st.db qid (inputPatch d) with
  | Except.error e => (Except.error e, st)
  | Except.ok (doc, db2) =>
    let st2 := { st with db := db2 }
    match d.file with
    | none => (Except.ok doc, st2)
    | some f =>
      match AbstractAsset.updateFile env cfg doc f st2 with
      | (Except.error e, st3) => (Except.error e, st3)
      | (Except.ok r2, st3) =>
        match dbUpdate st3.db qid (recFullPatch r2) with
        | Except.error e => (Except.error e, st3)
        | Except.ok (r3, db3) => (Except.ok r3, { st3 with db := db3 })

end LibModule

/-! ## The write-stream promise (`LocalAssetRepository.write` /
`LocalAsset.write` body)

The promise body registers `reject` on the output stream's `error` event,
pipes, and registers `resolve` on the input stream's `end` event.  The
settled result is therefore decided by whichever of the two events fires
first; write events are modelled as an explicit trace. -/

/-- Events observable during a piped write: a data chunk reaching the
output, an output-stream `error`, the input-stream `end`. -/
inductive WEv where
  | chunk
  | errEv (e : Err)
  | endEv
deriving DecidableEq

/-- The settled value of the write promise over an event trace: the first
`error` rejects, the first `end` resolves, neither leaves it pending. -/
def settleWrite : List WEv → Option (Except Err Unit)
  | [] => none
  | WEv.chunk :: r => settleWrite r
  | WEv.errEv e :: _ => some (Except.error e)
  | WEv.endEv :: _ => some (Except.ok ())

/-- Chunks flushed to the destination file: everything before the first
output error. -/
def chunksWritten : List WEv → Nat
  | [] => 0
  | WEv.chunk :: r => chunksWritten r + 1
  | WEv.errEv _ :: _ => 0
  | WEv.endEv :: r => chunksWritten r

/-- The filesystem outcome of the piped write: the destination file is
created (by `createWriteStream`) holding the flushed chunks, and the
promise settles per `settleWrite` — the file is never rolled back. -/
def pipeWrite (tr : List WEv) (p : String) (fs : Fs) :
    Fs × Option (Except Err Unit) :=
  (fs.writeF p (chunksWritten tr), settleWrite tr)

/-! ## Concrete fixtures used by witnesses and counterexamples -/

/-- A standard configuration: assets under `/assets`, thumbnails under
`/thumbs` with extension `.png`. -/
def cfgA : Config :=
  { assetDir := "/assets", thumbnailDir := "/thumbs", thumbnailExt := ".png" }

/-- The fault-free environment (the default probe result is a tool
failure, standing for the common case of best-effort metadata). -/
def envClean : Env := {}

/-- ffmpeg fails when rendering `/thumbs/7.png`. -/
def envThumbFail : Env :=
  { ffmpegRes := fun p => if p == "/thumbs/7.png" then some 1 else none }

/-- ffmpeg fails when rendering `/thumbs/8.png`. -/
def envThumbFail8 : Env :=
  { ffmpegRes := fun p => if p == "/thumbs/8.png" then some 2 else none }

/-- The write stream to `/assets/9.png` fails downstream. -/
def envWriteFail : Env :=
  { writeRes := fun p => if p == "/assets/9.png" then some (Err.ioErr 5) else none }

/-- A PNG upload sitting at `/tmp/up1`. -/
def fPng : FormidableFile :=
  { filepath := "/tmp/up1", mimetype := "image/png", originalFilename := "a.png", size := 10 }

/-- A JPEG upload sitting at `/tmp/up8`. -/
def fJpeg8 : FormidableFile :=
  { filepath := "/tmp/up8", mimetype := "image/jpeg", originalFilename := "b.jpg", size := 11 }

/-- A PNG upload sitting at `/tmp/up9`. -/
def fPng9 : FormidableFile :=
  { filepath := "/tmp/up9", mimetype := "image/png", originalFilename := "c.png", size := 12 }

/-- An SVG upload (`image/svg+xml`) sitting at `/tmp/up2`. -/
def fSvg : FormidableFile :=
  { filepath := "/tmp/up2", mimetype := "image/svg+xml", originalFilename := "a.png", size := 4 }

/-- Insert request data carrying `fPng`. -/
def dPng : InputData := { file := some fPng }

/-- Insert request data carrying `fJpeg8`. -/
def dJpeg8 : InputData := { file := some fJpeg8 }

/-- Insert request data carrying `fPng9`. -/
def dPng9 : InputData := { file := some fPng9 }

/-- Update request data carrying only a non-file field. -/
def dTitle : InputData := { title := some "t" }

/-- A state holding only the temporary upload for `fPng`. -/
def st0 : St := { fs := [("/tmp/up1", 5)], db := [], logs := [] }

/-- A state holding only the temporary upload for `fJpeg8`. -/
def st8 : St := { fs := [("/tmp/up8", 6)], db := [], logs := [] }

/-- A state holding only the temporary upload for `fPng9`. -/
def st9 : St := { fs := [("/tmp/up9", 7)], db := [], logs := [] }

/-- A completed JPEG asset record with a thumbnail flag. -/
def recJpeg : Rec :=
  { _id := "a1", repo := some "local", path := some "a1.jpeg",
    type := some "image", subtype := some "jpeg", size := some 7, hasThumb := true }

/-- State holding `recJpeg` and its primary file. -/
def stJ : St := { fs := [("/assets/a1.jpeg", 7)], db := [recJpeg], logs := [] }

/-- State holding `recJpeg` but no files at all: both its thumbnail and its
primary file are missing. -/
def stNoPrimary : St := { fs := [], db := [recJpeg], logs := [] }

/-- The `assetData` object assembled for an `image/svg+xml` upload with id
`s1` in the `updateAsset` pipeline. -/
def adSvg : Assetsmodule.AssetData :=
  { path := "s1.svg+xml", repo := "local", size := 4, subtype := "svg+xml", type := "image" }

/-- State holding the primary file of the `s1` svg asset. -/
def stSvg : St := { fs := [("/assets/s1.svg+xml", 9)], db := [], logs := [] }

/-- A fresh provisional record with id `x1`. -/
def recNew : Rec := { _id := "x1" }

/-- State holding only the temporary upload for `fSvg`. -/
def stSvg2 : St := { fs := [("/tmp/up2", 3)], db := [], logs := [] }

/-- A fresh provisional record with id `a1`. -/
def recA1 : Rec := { _id := "a1" }

/-- State holding the provisional `a1` record and the `fPng` upload. -/
def stRun : St := { fs := [("/tmp/up1", 5)], db := [recA1], logs := [] }

/-- A write-event trace whose output error fires only after the input's
`end` event. -/
def trLate : List WEv := [WEv.chunk, WEv.endEv, WEv.errEv (Err.ioErr 3)]

/-- The record produced by the successful `updateAsset` run of
`envClean`/`cfgA`/`recA1`/`fPng`/`stRun`. -/
def recOutPng : Rec :=
  { _id := "a1", repo := some "local", path := some "a1.png",
    type := some "image", subtype := some "png", size := some 10, hasThumb := true }

/-- The state after that successful `updateAsset` run. -/
def stOutPng : St :=
  { fs := [("/thumbs/a1.png", 1), ("/assets/a1.png", 5)], db := [recOutPng],
    logs := ["METADATA_GEN_FAILED"] }

/-- The record produced by the successful `updateFile` run of
`envClean`/`cfgA`/`recNew`/`fSvg`/`stSvg2`. -/
def recOutSvg : Rec :=
  { _id := "x1", path := some "x1.svg", type := some "image",
    subtype := some "svg+xml", size := some 4, hasThumb := false }

/-- The state after that successful `updateFile` run. -/
def stOutSvg : St := { fs := [("/assets/x1.svg", 3)], db := [], logs := [] }

/-! ## Helper lemmas -/

theorem Fs.hasFile_writeF_self (fs : Fs) (p : String) (c : Nat) :
    (fs.writeF p c).hasFile p = true := by
  simp [Fs.writeF, Fs.hasFile]

theorem Fs.hasFile_removeF_self (fs : Fs) (p : String) :
    (fs.removeF p).hasFile p = false := by
  simp [Fs.removeF, Fs.hasFile, List.any_eq_true, List.mem_filter]

theorem foldl_normStep_noDD (l : List String) (acc : List String)
    (h : ".." ∉ l) : l.foldl normStep acc = acc ++ l := by
  induction l generalizing acc with
  | nil => simp
  | cons s r ih =>
    have hs : s ≠ ".." := by rintro rfl; exact h (List.mem_cons_self _ _)
    have hr : ".." ∉ r := fun hm => h (List.mem_cons_of_mem _ hm)
    simp [List.foldl_cons, normStep, hs, ih _ hr]

theorem isAbsoluteS_joinAbs (l : List String) : isAbsoluteS (joinAbs l) = true := by
  cases l with
  | nil => decide
  | cons s rest =>
    cases rest with
    | nil =>
      show isAbsoluteS ("/" ++ s) = true
      simp [isAbsoluteS, String.toList, String.data_append]
    | cons t r =>
      show isAbsoluteS ("/" ++ s ++ joinAbs (t :: r)) = true
      simp [isAbsoluteS, String.toList, String.data_append]

theorem resolvePath_idem (cwd p : String) :
    LocalAssetRepository.resolvePath cwd (LocalAssetRepository.resolvePath cwd p) =
      LocalAssetRepository.resolvePath cwd p := by
  unfold LocalAssetRepository.resolvePath
  by_cases h : isAbsoluteS p = true
  · simp [h]
  · simp only [Bool.not_eq_true] at h
    simp [h, pathResolve, isAbsoluteS_joinAbs]

theorem localResolve_idem (cfg : Config) (x : String) :
    Assetsmodule.localResolve cfg (Assetsmodule.localResolve cfg x) =
      Assetsmodule.localResolve cfg x :=
  resolvePath_idem cfg.thumbnailDir x

theorem localResolve_thumbPath (cfg : Config) (a : Rec) :
    Assetsmodule.localResolve cfg (Assetsmodule.getThumbPath cfg a) =
      Assetsmodule.getThumbPath cfg a := by
  unfold Assetsmodule.getThumbPath
  exact localResolve_idem cfg _

theorem dbUpdate_ok_shape {db : List Rec} {idq : String} {p : Patch} {r2 : Rec}
    {db2 : List Rec} (h : dbUpdate db idq p = Except.ok (r2, db2)) :
    ∃ r0, dbFind db idq = some r0 ∧ r2 = r0.applyPatch p := by
  unfold dbUpdate at h
  cases h0 : dbFind db idq with
  | none => rw [h0] at h; exact absurd h (by simp)
  | some r0 =>
    rw [h0] at h
    simp only [Except.ok.injEq, Prod.mk.injEq] at h
    exact ⟨r0, rfl, h.1.symm⟩

theorem generateThumbnail_shape {env : Env} {cfg : Config}
    {a : Assetsmodule.AssetData} {st : St} {res : Except Err Unit}
    {a2 : Assetsmodule.AssetData} {st2 : St}
    (h : Assetsmodule.generateThumbnail env cfg a st = (res, a2, st2)) :
    a2 = Assetsmodule.genAsset a ∧ st2.db = st.db := by
  unfold Assetsmodule.generateThumbnail at h
  split at h
  · simp only [Prod.mk.injEq] at h
    exact ⟨h.2.1.symm, by rw [← h.2.2]⟩
  · split at h
    · simp only [Prod.mk.injEq] at h
      exact ⟨h.2.1.symm, by rw [← h.2.2]⟩
    · split at h
      · simp only [Prod.mk.injEq] at h
        exact ⟨h.2.1.symm, by rw [← h.2.2]⟩
      · split at h
        · simp only [Prod.mk.injEq] at h
          exact ⟨h.2.1.symm, by rw [← h.2.2]⟩
        · simp only [Prod.mk.injEq] at h
          exact ⟨h.2.1.symm, by rw [← h.2.2]⟩

theorem updateAssetBody_ok_path {env : Env} {cfg : Config} {doc : Rec}
    {f : FormidableFile} {st : St} {r2 : Rec} {st2 : St}
    (h : Assetsmodule.updateAssetBody env cfg doc f st = (Except.ok r2, st2)) :
    r2.path = some (doc._id ++ "." ++ mimeSubtypeOf f.mimetype) := by
  unfold Assetsmodule.updateAssetBody at h
  split at h
  · exact absurd h (by simp)
  · split at h
    · exact absurd h (by simp)
    · split at h
      · exact absurd h (by simp)
      · split at h
        · exact absurd h (by simp)
        · split at h
          · exact absurd h (by simp)
          · rename_i hgen
            split at h
            · exact absurd h (by simp)
            · split at h
              · exact absurd h (by simp)
              · rename_i hdbu
                simp only [Prod.mk.injEq, Except.ok.injEq] at h
                obtain ⟨hrr, _⟩ := h
                subst hrr
                obtain ⟨r0, _hfind, hshape⟩ := dbUpdate_ok_shape hdbu
                obtain ⟨ha2, _⟩ := generateThumbnail_shape hgen
                subst hshape ha2
                simp [Rec.applyPatch, Assetsmodule.assetPatch, Assetsmodule.genAsset, updField]

theorem updateAsset_ok_path {env : Env} {cfg : Config} {doc : Rec}
    {f : FormidableFile} {b : Bool} {st : St} {r2 : Rec} {st2 : St}
    (h : Assetsmodule.updateAsset env cfg doc (some f) b st = (Except.ok r2, st2)) :
    r2.path = some (doc._id ++ "." ++ mimeSubtypeOf f.mimetype) := by
  simp only [Assetsmodule.updateAsset] at h
  split at h
  · rename_i hbody
    simp only [Prod.mk.injEq, Except.ok.injEq] at h
    obtain ⟨h1, h2⟩ := h
    subst h1 h2
    exact updateAssetBody_ok_path hbody
  · split at h
    · exact absurd h (by simp)
    · split at h
      · split at h <;> exact absurd h (by simp)
      · exact absurd h (by simp)

theorem updateFilePre_ok_shape {env : Env} {cfg : Config} {r : Rec}
    {f : FormidableFile} {st : St} {r2 : Rec} {st2 : St}
    (h : AbstractAsset.updateFilePre env cfg r f st = (Except.ok r2, st2)) :
    r2 = AbstractAsset.updData r f := by
  unfold AbstractAsset.updateFilePre at h
  split at h
  · exact absurd h (by simp)
  · split at h
    · exact absurd h (by simp)
    · split at h
      · exact absurd h (by simp)
      · split at h
        · exact absurd h (by simp)
        · split at h
          · exact absurd h (by simp)
          · simp only [Prod.mk.injEq, Except.ok.injEq] at h
            exact h.1.symm

theorem generateMetadata_ok (env : Env) (cfg : Config) (r : Rec) (st : St) :
    ∃ m st2, AbstractAsset.generateMetadata env cfg r st = (Except.ok m, st2) := by
  unfold AbstractAsset.generateMetadata
  split
  · exact ⟨_, _, rfl⟩
  · split
    · exact ⟨_, _, rfl⟩
    · exact ⟨_, _, rfl⟩

/-! ## Claim theorems -/

/-- C1: the claim says that when a required step of asset creation fails
after the provisional record is persisted, both the provisional record and
any partially-written primary file are deleted and the original failure
surfaces.  The code deletes only the record: the compensating
`this.delete({_id})` reads `repo`/`path` from the provisional database
record, which never received them (they are persisted only by the final
`super.update` that did not run), so the primary file written to
`<id>.<subtype>` survives.  Evaluated here at three failing inputs: a
part_004-variant insert whose thumbnail generation fails (record gone,
error surfaced, `/assets/7.png` orphaned), a wrapper-variant insert whose
thumbnail generation fails (`/assets/8.jpeg` orphaned), and a
part_004-variant insert whose storage write fails downstream (partial
`/assets/9.png` left behind). -/
theorem c1_delete_on_error_leaves_primary_file :
    (Assetsmodule.moduleInsert envThumbFail cfgA "7" dPng st0).1 =
      Except.error (Err.ffmpegRaw 1) ∧
    dbFind (Assetsmodule.moduleInsert envThumbFail cfgA "7" dPng st0).2.db "7" = none ∧
    (Assetsmodule.moduleInsert envThumbFail cfgA "7" dPng st0).2.fs.hasFile
      "/assets/7.png" = true ∧
    (LibModule.moduleInsert envThumbFail8 cfgA "8" dJpeg8 st8).1 =
      Except.error (Err.genThumbFail 2) ∧
    dbFind (LibModule.moduleInsert envThumbFail8 cfgA "8" dJpeg8 st8).2.db "8" = none ∧
    (LibModule.moduleInsert envThumbFail8 cfgA "8" dJpeg8 st8).2.fs.hasFile
      "/assets/8.jpeg" = true ∧
    (Assetsmodule.moduleInsert envWriteFail cfgA "9" dPng9 st9).1 =
      Except.error (Err.ioErr 5) ∧
    dbFind (Assetsmodule.moduleInsert envWriteFail cfgA "9" dPng9 st9).2.db "9" = none ∧
    (Assetsmodule.moduleInsert envWriteFail cfgA "9" dPng9 st9).2.fs.hasFile
      "/assets/9.png" = true := by
  decide

/-- C2 counterexample: the claim says every record completing a create or
replace has `path = <id>.<subtype>`.  An `image/svg+xml` upload through the
wrapper variant's `updateFile` completes with `path = "x1.svg"`, which
differs from `<id>.<subtype> = "x1.svg+xml"`. -/
theorem c2_path_subtype_counterexample :
    (AbstractAsset.updateFile envClean cfgA recNew fSvg stSvg2).1.map (fun r => r.path) =
      Except.ok (some "x1.svg") ∧
    mimeSubtypeOf fSvg.mimetype = "svg+xml" ∧
    some "x1.svg" ≠ some (recNew._id ++ "." ++ mimeSubtypeOf fSvg.mimetype) := by
  decide

/-- C2 (amended): a completed `updateAsset` run always assigns
`path = <id>.<subtype>`; the wrapper variant's `updateFile` assigns
`<id>.<getFileExtension(file)>`, which equals `<id>.<subtype>` exactly when
the subtype is not `svg+xml`; and a caller-supplied `path` in update input
is discarded before anything is validated or persisted (`delete
data.path`), so the update result never depends on it. -/
theorem c2_path_amended :
    (∀ (env : Env) (cfg : Config) (doc : Rec) (f : FormidableFile) (b : Bool)
        (st : St) (r2 : Rec) (st2 : St),
      Assetsmodule.updateAsset env cfg doc (some f) b st = (Except.ok r2, st2) →
      r2.path = some (doc._id ++ "." ++ mimeSubtypeOf f.mimetype)) ∧
    (∀ (idStr : String) (f : FormidableFile),
      mimeSubtypeOf f.mimetype ≠ "svg+xml" →
      AbstractAsset.newPath idStr f = idStr ++ "." ++ mimeSubtypeOf f.mimetype) ∧
    (∀ (env : Env) (cfg : Config) (qid : String) (d : InputData) (p : String) (st : St),
      Assetsmodule.moduleUpdate env cfg qid { d with path := some p } st =
        Assetsmodule.moduleUpdate env cfg qid { d with path := none } st) := by
  refine ⟨?_, ?_, ?_⟩
  · intro env cfg doc f b st r2 st2 h
    exact updateAsset_ok_path h
  · intro idStr f h
    unfold AbstractAsset.newPath AbstractAsset.getFileExtension
    simp [h]
  · intro env cfg qid d p st
    rfl

/-- C2 witness: a concrete successful `updateAsset` run (a PNG replace on
record `a1`) to which the amended theorem's first part applies, yielding
`path = "a1" ++ "." ++ "png"`. -/
theorem c2_path_amended_witness :
    Assetsmodule.updateAsset envClean cfgA recA1 (some fPng) false stRun =
      (Except.ok recOutPng, stOutPng) ∧
    recOutPng.path = some (recA1._id ++ "." ++ mimeSubtypeOf fPng.mimetype) :=
  ⟨by decide,
   c2_path_amended.1 envClean cfgA recA1 fPng false stRun recOutPng stOutPng (by decide)⟩

/-- C3: the claim says the thumbnail artifact lives at
`<thumbnailRoot>/<id><thumbnailExt>` and that the same location is used for
generation and read-back.  In the part_004 variant, `getThumbPath` (used by
serving and by the housekeeping existence check) is indeed
`<thumbnailRoot>/<id><thumbnailExt>` — but `generateThumbnail` writes its
output to `localResolve(assetData.path) = <thumbnailRoot>/<id>.<subtype>`.
For a JPEG asset with `.png` thumbnails the two differ: the generated file
lands at `/thumbs/a1.jpeg` while every reader looks at `/thumbs/a1.png`. -/
theorem c3_thumbnail_location_mismatch :
    Assetsmodule.getThumbPath cfgA recJpeg = "/thumbs/a1.png" ∧
    Assetsmodule.genThumbOut cfgA "a1.jpeg" = "/thumbs/a1.jpeg" ∧
    AbstractAsset.thumbPath cfgA "a1" = "/thumbs/a1.png" ∧
    (Assetsmodule.generateThumbnail envClean cfgA
      (Assetsmodule.recAssetData recJpeg) stJ).2.2.fs.hasFile "/thumbs/a1.jpeg" = true ∧
    (Assetsmodule.generateThumbnail envClean cfgA
      (Assetsmodule.recAssetData recJpeg) stJ).2.2.fs.hasFile "/thumbs/a1.png" = false := by
  decide

/-- C4 counterexample: the claim says an `image/svg+xml` upload yields
`hasThumbnail = false` and no thumbnail file.  The part_004 variant's
`generateThumbnail` computes the flag from the type alone, so an svg image
gets `hasThumb = true` and a thumbnail file is written. -/
theorem c4_svg_thumbnail_counterexample :
    ((Assetsmodule.generateThumbnail envClean cfgA adSvg stSvg).2.1).hasThumb = true ∧
    (Assetsmodule.generateThumbnail envClean cfgA adSvg stSvg).2.2.fs.hasFile
      "/thumbs/s1.svg+xml" = true := by
  decide

/-- C4 (amended): in the wrapper variant, `hasThumb` is true exactly when
the type is `image` with a subtype other than `svg+xml`, or the type is
`video` — and a record whose flag is false generates no thumbnail, so a
completed `image/svg+xml` upload through `updateFile` has
`hasThumb = false`.  In the part_004 `updateAsset` pipeline the flag is
computed from the type alone (true for every image or video, svg
included). -/
theorem c4_hasthumb_amended :
    (∀ t s, AbstractAsset.hasThumbFlag t s = true ↔
      ((t = "image" ∧ s ≠ "svg+xml") ∨ t = "video")) ∧
    (∀ t, Assetsmodule.hasThumbFlag t = true ↔ (t = "image" ∨ t = "video")) ∧
    (∀ (env : Env) (cfg : Config) (r : Rec) (reg : Bool) (st : St),
      r.hasThumb = false →
      AbstractAsset.generateThumb env cfg r reg st = (Except.ok (), st)) ∧
    (∀ (env : Env) (cfg : Config) (r : Rec) (f : FormidableFile) (st : St)
        (r3 : Rec) (st3 : St),
      f.mimetype = "image/svg+xml" →
      AbstractAsset.updateFile env cfg r f st = (Except.ok r3, st3) →
      r3.hasThumb = false) := by
  refine ⟨?_, ?_, ?_, ?_⟩
  · intro t s
    simp [AbstractAsset.hasThumbFlag, and_comm]
  · intro t
    simp [Assetsmodule.hasThumbFlag]
  · intro env cfg r reg st h
    unfold AbstractAsset.generateThumb
    simp [h]
  · intro env cfg r f st r3 st3 hm h
    unfold AbstractAsset.updateFile at h
    split at h
    · exact absurd h (by simp)
    · rename_i r2 st2 hpre
      split at h
      · exact absurd h (by simp)
      · simp only [Prod.mk.injEq, Except.ok.injEq] at h
        obtain ⟨h1, _⟩ := h
        subst h1
        have hr2 := updateFilePre_ok_shape hpre
        subst hr2
        simp [AbstractAsset.applyMeta, AbstractAsset.updData, hm]
        decide

/-- C4 witness: a concrete successful `image/svg+xml` create through
`updateFile` to which the amended theorem's last part applies — the
completed record has `hasThumb = false`. -/
theorem c4_hasthumb_amended_witness :
    (fSvg.mimetype = "image/svg+xml" ∧
     AbstractAsset.updateFile envClean cfgA recNew fSvg stSvg2 =
       (Except.ok recOutSvg, stOutSvg)) ∧
    recOutSvg.hasThumb = false :=
  ⟨⟨rfl, by decide⟩,
   c4_hasthumb_amended.2.2.2 envClean cfgA recNew fSvg stSvg2 recOutSvg stOutSvg
     rfl (by decide)⟩

/-- C5: repository delete is idempotent — deleting a path with no file
there succeeds without touching the state (absence is the already-satisfied
goal), so a second delete of the same path never errors; a non-`NOT_FOUND`
`stat` fault propagates, and a non-`NOT_FOUND` `rm` fault propagates. -/
theorem c5_delete_idempotent :
    (∀ (env : Env) (st : St) (cwd p : String),
      env.statErr (LocalAssetRepository.resolvePath cwd p) = none →
      st.fs.hasFile (LocalAssetRepository.resolvePath cwd p) = false →
      LocalAssetRepository.deleteOp env st cwd p = (Except.ok (), st)) ∧
    (∀ (env : Env) (st : St) (cwd p : String),
      env.statErr (LocalAssetRepository.resolvePath cwd p) = none →
      env.rmErr (LocalAssetRepository.resolvePath cwd p) = none →
      (LocalAssetRepository.deleteOp env
        (LocalAssetRepository.deleteOp env st cwd p).2 cwd p).1 = Except.ok ()) ∧
    (∀ (env : Env) (st : St) (cwd p : String) (e : Err),
      env.statErr (LocalAssetRepository.resolvePath cwd p) = some e →
      e ≠ Err.NOT_FOUND →
      LocalAssetRepository.deleteOp env st cwd p = (Except.error e, st)) ∧
    (∀ (env : Env) (st : St) (cwd p : String) (e : Err),
      env.statErr (LocalAssetRepository.resolvePath cwd p) = none →
      st.fs.hasFile (LocalAssetRepository.resolvePath cwd p) = true →
      env.rmErr (LocalAssetRepository.resolvePath cwd p) = some e →
      e ≠ Err.NOT_FOUND →
      LocalAssetRepository.deleteOp env st cwd p = (Except.error e, st)) := by
  refine ⟨?_, ?_, ?_, ?_⟩
  · intro env st cwd p h1 h2
    simp [LocalAssetRepository.deleteOp, LocalAssetRepository.statCheck, h1, h2]
  · intro env st cwd p h1 h2
    by_cases hf : st.fs.hasFile (LocalAssetRepository.resolvePath cwd p) = true
    · simp [LocalAssetRepository.deleteOp, LocalAssetRepository.statCheck, h1, h2, hf,
        Fs.hasFile_removeF_self]
    · simp only [Bool.not_eq_true] at hf
      simp [LocalAssetRepository.deleteOp, LocalAssetRepository.statCheck, h1, h2, hf]
  · intro env st cwd p e h1 h2
    simp [LocalAssetRepository.deleteOp, LocalAssetRepository.statCheck, h1, h2]
  · intro env st cwd p e h1 h2 h3 h4
    simp [LocalAssetRepository.deleteOp, LocalAssetRepository.statCheck, h1, h2, h3, h4]

/-- C5 witness: deleting the absent `/data/gone.txt` succeeds and leaves
the state untouched. -/
theorem c5_delete_idempotent_witness :
    (envClean.statErr (LocalAssetRepository.resolvePath "/data" "gone.txt") = none ∧
     st0.fs.hasFile (LocalAssetRepository.resolvePath "/data" "gone.txt") = false) ∧
    LocalAssetRepository.deleteOp envClean st0 "/data" "gone.txt" = (Except.ok (), st0) :=
  ⟨⟨rfl, by decide⟩, c5_delete_idempotent.1 envClean st0 "/data" "gone.txt" rfl (by decide)⟩

/-- C6 counterexample: the claim says resolution of a relative path never
escapes the configured root.  The relative input `../a` against root `/r`
resolves to `/a`, which is outside `/r`. -/
theorem c6_escape_counterexample :
    LocalAssetRepository.resolvePath "/r" "../a" = "/a" ∧
    underRoot "/r" (LocalAssetRepository.resolvePath "/r" "../a") = false := by
  decide

/-- C6 (amended): an absolute input passes through `resolvePath` unchanged;
a relative input is joined and normalised against the root
(`pathResolve`/`resolveSegs`), and the result stays below the root exactly
when no `..` segment climbs above it — in particular, for any root and
relative path free of `..` segments the resolved segments extend the
root's segments.  A relative path with enough `..` segments escapes (see
the counterexample). -/
theorem c6_resolve_amended :
    (∀ cwd p, isAbsoluteS p = true → LocalAssetRepository.resolvePath cwd p = p) ∧
    (∀ cwd p, isAbsoluteS p = false →
      LocalAssetRepository.resolvePath cwd p = joinAbs (resolveSegs cwd p)) ∧
    (∀ cwd p, ".." ∉ splitSegs cwd → ".." ∉ splitSegs p →
      resolveSegs cwd p = splitSegs cwd ++ splitSegs p) := by
  refine ⟨?_, ?_, ?_⟩
  · intro cwd p h; simp [LocalAssetRepository.resolvePath, h]
  · intro cwd p h; simp [LocalAssetRepository.resolvePath, h, pathResolve]
  · intro cwd p hc hp
    unfold resolveSegs
    rw [List.foldl_append, foldl_normStep_noDD _ _ hc, foldl_normStep_noDD _ _ hp]
    simp

/-- C6 witness: `/etc/x` passes through unchanged against root `/r`, and
the `..`-free relative path `a/b` resolves to the root's segments extended
by its own. -/
theorem c6_resolve_amended_witness :
    (isAbsoluteS "/etc/x" = true ∧
     LocalAssetRepository.resolvePath "/r" "/etc/x" = "/etc/x") ∧
    (".." ∉ splitSegs "/r" ∧ ".." ∉ splitSegs "a/b" ∧
     resolveSegs "/r" "a/b" = splitSegs "/r" ++ splitSegs "a/b") :=
  ⟨⟨by decide, c6_resolve_amended.1 "/r" "/etc/x" (by decide)⟩,
   ⟨by decide, by decide, c6_resolve_amended.2.2 "/r" "a/b" (by decide) (by decide)⟩⟩

/-- C7 counterexample: the claim says every downstream write failure is
propagated to the caller.  On the trace where the output stream's error
event fires after the input stream's `end` event, the promise has already
resolved successfully, so the failure is swallowed. -/
theorem c7_late_error_counterexample :
    WEv.errEv (Err.ioErr 3) ∈ trLate ∧
    settleWrite trLate = some (Except.ok ()) := by
  decide

/-- C7 (amended): the write promise settles with the first of the output
`error` and input `end` events: a downstream failure whose error event
precedes the input's end rejects the promise with that error and the
partially-written file is left in place (no rollback); success is only ever
reported once the input's `end` event fires (everything before it being
data chunks); a failure emitted after the input ends is not reported. -/
theorem c7_write_amended :
    (∀ (pre : List WEv) (e : Err) (post : List WEv) (p : String) (fs : Fs),
      (∀ x ∈ pre, x = WEv.chunk) →
      (pipeWrite (pre ++ WEv.errEv e :: post) p fs).2 = some (Except.error e)) ∧
    (∀ (tr : List WEv) (p : String) (fs : Fs),
      (pipeWrite tr p fs).1.hasFile p = true) ∧
    (∀ tr : List WEv, settleWrite tr = some (Except.ok ()) →
      ∃ pre post, tr = pre ++ WEv.endEv :: post ∧ ∀ x ∈ pre, x = WEv.chunk) := by
  refine ⟨?_, ?_, ?_⟩
  · intro pre e post p fs h
    induction pre with
    | nil => rfl
    | cons x r ih =>
      have hx : x = WEv.chunk := h x (List.mem_cons_self _ _)
      subst hx
      exact ih (fun y hy => h y (List.mem_cons_of_mem _ hy))
  · intro tr p fs; exact Fs.hasFile_writeF_self _ _ _
  · intro tr h
    induction tr with
    | nil => exact absurd h (by simp [settleWrite])
    | cons x r ih =>
      cases x with
      | chunk =>
        obtain ⟨pre, post, heq, hall⟩ := ih h
        refine ⟨WEv.chunk :: pre, post, by simp [heq], ?_⟩
        intro y hy
        rcases List.mem_cons.mp hy with h1 | h2
        · exact h1
        · exact hall y h2
      | errEv e => exact absurd h (by simp [settleWrite])
      | endEv => exact ⟨[], r, rfl, by intro y hy; exact absurd hy (List.not_mem_nil y)⟩

/-- C7 witness: an error event after one chunk (input still open) rejects
the promise with that error. -/
theorem c7_write_amended_witness :
    (∀ x ∈ [WEv.chunk], x = WEv.chunk) ∧
    (pipeWrite ([WEv.chunk] ++ WEv.errEv (Err.ioErr 9) :: [WEv.endEv])
      "/assets/w.png" []).2 = some (Except.error (Err.ioErr 9)) :=
  ⟨by decide,
   c7_write_amended.1 [WEv.chunk] (Err.ioErr 9) [WEv.endEv] "/assets/w.png" [] (by decide)⟩

/-- C8 counterexample: the claim says that when a flagged record's
thumbnail is missing and the primary file is also absent, the scan "only
logs".  With the primary absent the repository read rejects at the `await`
inside `generateThumbnail`'s async promise executor, so the fire-and-forget
promise never settles and `.catch(_log)` never fires: the scan item leaves
the state — including the log — completely unchanged. -/
theorem c8_absent_primary_counterexample :
    stNoPrimary.fs.hasFile (Assetsmodule.getThumbPath cfgA recJpeg) = false ∧
    stNoPrimary.fs.hasFile
      (LocalAssetRepository.resolvePath cfgA.assetDir "a1.jpeg") = false ∧
    (Assetsmodule.generateThumbnail envClean cfgA
      (Assetsmodule.recAssetData recJpeg) stNoPrimary).1 = Except.error Err.hang ∧
    Assetsmodule.regenItem envClean cfgA stNoPrimary recJpeg = stNoPrimary := by
  decide

/-- C8 (amended): the thumbnail-regeneration scan skips records without the
`hasThumb` flag (leaving the state untouched); for a flagged record whose
thumbnail is missing it fires `generateThumbnail` fire-and-forget: when the
primary file is present and the tool succeeds the thumbnail file is written
and nothing is logged, and a tool failure is only logged — but when the
primary file is absent the generation promise never settles (the read
rejects inside the async promise executor), so nothing is logged and the
state is unchanged; the scan folds over every record unconditionally
(processing a concatenation processes both halves in order, whatever any
item did) and never touches the database. -/
theorem c8_regen_scan_amended :
    (∀ (env : Env) (cfg : Config) (st : St) (a : Rec),
      a.hasThumb = false → Assetsmodule.regenItem env cfg st a = st) ∧
    (∀ (env : Env) (cfg : Config) (st : St) (a : Rec) (p : String),
      a.hasThumb = true → a.repo = some "local" → a.path = some p →
      Assetsmodule.hasThumbFlag ((a.type).getD "") = true →
      env.statErr (Assetsmodule.getThumbPath cfg a) = none →
      st.fs.hasFile (Assetsmodule.getThumbPath cfg a) = false →
      env.statErr (LocalAssetRepository.resolvePath cfg.assetDir p) = none →
      st.fs.hasFile (LocalAssetRepository.resolvePath cfg.assetDir p) = true →
      env.ffmpegRes (Assetsmodule.genThumbOut cfg p) = none →
      Assetsmodule.regenItem env cfg st a =
        { st with fs := st.fs.writeF (Assetsmodule.genThumbOut cfg p) 1 }) ∧
    (∀ (env : Env) (cfg : Config) (st : St) (a : Rec) (p : String),
      a.hasThumb = true → a.repo = some "local" → a.path = some p →
      Assetsmodule.hasThumbFlag ((a.type).getD "") = true →
      env.statErr (Assetsmodule.getThumbPath cfg a) = none →
      st.fs.hasFile (Assetsmodule.getThumbPath cfg a) = false →
      env.statErr (LocalAssetRepository.resolvePath cfg.assetDir p) = none →
      st.fs.hasFile (LocalAssetRepository.resolvePath cfg.assetDir p) = false →
      (Assetsmodule.generateThumbnail env cfg (Assetsmodule.recAssetData a) st).1 =
        Except.error Err.hang ∧
      Assetsmodule.regenItem env cfg st a = st) ∧
    (∀ (env : Env) (cfg : Config) (st : St) (a : Rec) (p : String) (n : Nat),
      a.hasThumb = true → a.repo = some "local" → a.path = some p →
      Assetsmodule.hasThumbFlag ((a.type).getD "") = true →
      env.statErr (Assetsmodule.getThumbPath cfg a) = none →
      st.fs.hasFile (Assetsmodule.getThumbPath cfg a) = false →
      env.statErr (LocalAssetRepository.resolvePath cfg.assetDir p) = none →
      st.fs.hasFile (LocalAssetRepository.resolvePath cfg.assetDir p) = true →
      env.ffmpegRes (Assetsmodule.genThumbOut cfg p) = some n →
      Assetsmodule.regenItem env cfg st a =
        { st with logs := st.logs ++ ["THUMB_FAIL " ++ a._id] }) ∧
    (∀ (env : Env) (cfg : Config) (st : St) (l1 l2 : List Rec),
      Assetsmodule.regenerateThumbnails env cfg st (l1 ++ l2) =
        Assetsmodule.regenerateThumbnails env cfg
          (Assetsmodule.regenerateThumbnails env cfg st l1) l2) ∧
    (∀ (env : Env) (cfg : Config) (st : St) (a : Rec),
      (Assetsmodule.regenItem env cfg st a).db = st.db) := by
  have hitem2 : ∀ (env : Env) (cfg : Config) (st : St) (a : Rec) (p : String),
      a.hasThumb = true → a.repo = some "local" → a.path = some p →
      Assetsmodule.hasThumbFlag ((a.type).getD "") = true →
      env.statErr (Assetsmodule.getThumbPath cfg a) = none →
      st.fs.hasFile (Assetsmodule.getThumbPath cfg a) = false →
      env.statErr (LocalAssetRepository.resolvePath cfg.assetDir p) = none →
      st.fs.hasFile (LocalAssetRepository.resolvePath cfg.assetDir p) = true →
      env.ffmpegRes (Assetsmodule.genThumbOut cfg p) = none →
      Assetsmodule.regenItem env cfg st a =
        { st with fs := st.fs.writeF (Assetsmodule.genThumbOut cfg p) 1 } := by
    intro env cfg st a p h1 h2 h3 h4 h5 h6 h7 h8 h9
    unfold Assetsmodule.regenItem Assetsmodule.localExists
    rw [localResolve_thumbPath, h1]
    simp only [LocalAssetRepository.statCheck, h5, h6, Bool.false_eq_true, if_false]
    simp only [Assetsmodule.genThumbOut] at h9
    unfold Assetsmodule.generateThumbnail Assetsmodule.genAsset Assetsmodule.recAssetData
      Assetsmodule.getRepoRoot Assetsmodule.genThumbOut
    simp [h2, h3, h4, h7, h8, h9, LocalAssetRepository.statCheck]
  refine ⟨?_, hitem2, ?_, ?_, ?_, ?_⟩
  · intro env cfg st a h
    unfold Assetsmodule.regenItem
    simp [h]
  · intro env cfg st a p h1 h2 h3 h4 h5 h6 h7 h8
    have hgen : (Assetsmodule.generateThumbnail env cfg
        (Assetsmodule.recAssetData a) st).1 = Except.error Err.hang := by
      unfold Assetsmodule.generateThumbnail Assetsmodule.genAsset Assetsmodule.recAssetData
        Assetsmodule.getRepoRoot
      simp [h2, h3, h4, h7, h8, LocalAssetRepository.statCheck]
    refine ⟨hgen, ?_⟩
    unfold Assetsmodule.regenItem Assetsmodule.localExists
    rw [localResolve_thumbPath, h1]
    simp only [LocalAssetRepository.statCheck, h5, h6, Bool.false_eq_true, if_false]
    unfold Assetsmodule.generateThumbnail Assetsmodule.genAsset Assetsmodule.recAssetData
      Assetsmodule.getRepoRoot
    simp [h2, h3, h4, h7, h8, LocalAssetRepository.statCheck]
  · intro env cfg st a p n h1 h2 h3 h4 h5 h6 h7 h8 h9
    unfold Assetsmodule.regenItem Assetsmodule.localExists
    rw [localResolve_thumbPath, h1]
    simp only [LocalAssetRepository.statCheck, h5, h6, Bool.false_eq_true, if_false]
    unfold Assetsmodule.generateThumbnail Assetsmodule.genAsset Assetsmodule.recAssetData
      Assetsmodule.getRepoRoot
    simp [h2, h3, h4, h7, h8, h9, LocalAssetRepository.statCheck]
  · intro env cfg st l1 l2
    unfold Assetsmodule.regenerateThumbnails
    exact List.foldl_append _ _ _ _
  · intro env cfg st a
    unfold Assetsmodule.regenItem
    split
    · rfl
    · split
      · rfl
      · split
        · rfl
        · split
          · rename_i hgen
            exact (generateThumbnail_shape hgen).2
          · rename_i hgen
            split
            · exact (generateThumbnail_shape hgen).2
            · exact (generateThumbnail_shape hgen).2

/-- C8 witness: the flagged record `a1` with a present primary and a
missing thumbnail is regenerated — the scan item writes the thumbnail
file. -/
theorem c8_regen_scan_amended_witness :
    (recJpeg.hasThumb = true ∧
     stJ.fs.hasFile (Assetsmodule.getThumbPath cfgA recJpeg) = false ∧
     stJ.fs.hasFile (LocalAssetRepository.resolvePath cfgA.assetDir "a1.jpeg") = true) ∧
    Assetsmodule.regenItem envClean cfgA stJ recJpeg =
      { stJ with fs := stJ.fs.writeF (Assetsmodule.genThumbOut cfgA "a1.jpeg") 1 } :=
  ⟨⟨by decide, by decide, by decide⟩,
   c8_regen_scan_amended.2.1 envClean cfgA stJ recJpeg "a1.jpeg" (by decide) (by decide)
     (by decide) (by decide) rfl (by decide) rfl (by decide) rfl⟩

/-- C9: the metadata probe is a soft failure — `generateMetadata` always
resolves (never rejects); on a probe failure it logs and resolves with
empty metadata, leaving everything else unchanged; consequently the
lifecycle operation completes whenever its pre-metadata steps complete;
and the part_004 `getMetadata` likewise logs and resolves `undefined` on a
probe failure. -/
theorem c9_probe_soft_failure :
    (∀ (env : Env) (cfg : Config) (r : Rec) (st : St),
      ∃ m st2, AbstractAsset.generateMetadata env cfg r st = (Except.ok m, st2)) ∧
    (∀ (env : Env) (cfg : Config) (r : Rec) (st : St) (e : Err),
      r.hasThumb = true →
      env.probeRes (LocalAssetRepository.resolvePath cfg.assetDir ((r.path).getD "")) =
        Except.error e →
      AbstractAsset.generateMetadata env cfg r st =
        (Except.ok {}, { st with logs := st.logs ++ ["METADATA_GEN_FAILED"] })) ∧
    (∀ (env : Env) (cfg : Config) (r : Rec) (f : FormidableFile) (st : St)
        (r2 : Rec) (st2 : St),
      AbstractAsset.updateFilePre env cfg r f st = (Except.ok r2, st2) →
      ∃ r3 st3, AbstractAsset.updateFile env cfg r f st = (Except.ok r3, st3)) ∧
    (∀ (env : Env) (cfg : Config) (a : Assetsmodule.AssetData) (st : St) (e : Err),
      a.hasThumb = true → a.repo = "local" →
      env.statErr (LocalAssetRepository.resolvePath cfg.assetDir a.path) = none →
      st.fs.hasFile (LocalAssetRepository.resolvePath cfg.assetDir a.path) = true →
      env.probeRes (LocalAssetRepository.resolvePath cfg.assetDir a.path) =
        Except.error e →
      Assetsmodule.getMetadata env cfg a st =
        (Except.ok none, { st with logs := st.logs ++ ["METADATA_GEN_FAILED"] })) := by
  refine ⟨?_, ?_, ?_, ?_⟩
  · intro env cfg r st
    exact generateMetadata_ok env cfg r st
  · intro env cfg r st e ht hp
    unfold AbstractAsset.generateMetadata
    simp [ht, hp]
  · intro env cfg r f st r2 st2 hpre
    unfold AbstractAsset.updateFile
    rw [hpre]
    dsimp only
    obtain ⟨m, st3, hm⟩ := generateMetadata_ok env cfg r2 st2
    rw [hm]
    exact ⟨_, _, rfl⟩
  · intro env cfg a st e ht hrep hs hf hp
    unfold Assetsmodule.getMetadata Assetsmodule.getRepoRoot
    simp [ht, hrep, LocalAssetRepository.statCheck, hs, hf, hp]

/-- C9 witness: probing record `a1` with the always-failing probe yields
empty metadata plus a log entry, without rejecting. -/
theorem c9_probe_soft_failure_witness :
    recJpeg.hasThumb = true ∧
    AbstractAsset.generateMetadata envClean cfgA recJpeg stJ =
      (Except.ok {}, { stJ with logs := stJ.logs ++ ["METADATA_GEN_FAILED"] }) :=
  ⟨by decide,
   c9_probe_soft_failure.2.1 envClean cfgA recJpeg stJ Err.NOT_FOUND (by decide) rfl⟩

/-- C10: a post-insert file-handling step (`updateAsset`) invoked without an
uploaded file returns the record unchanged and performs no effect at all;
an update without an uploaded file (in either module variant) is exactly
the ordinary database update of the non-file fields — no repository write,
deletion, thumbnail or metadata generation, and no filesystem or log
change. -/
theorem c10_no_file_frame :
    (∀ (env : Env) (cfg : Config) (doc : Rec) (b : Bool) (st : St),
      Assetsmodule.updateAsset env cfg doc none b st = (Except.ok doc, st)) ∧
    (∀ (env : Env) (cfg : Config) (qid : String) (d : InputData) (st : St),
      d.file = none →
      Assetsmodule.moduleUpdate env cfg qid d st =
        match dbUpdate st.db qid (inputPatch { d with path := none }) with
        | Except.error e => (Except.error e, st)
        | Except.ok (doc, db2) => (Except.ok doc, { st with db := db2 })) ∧
    (∀ (env : Env) (cfg : Config) (qid : String) (d : InputData) (st : St),
      d.file = none →
      LibModule.moduleUpdate env cfg qid d st =
        match dbUpdate st.db qid (inputPatch d) with
        | Except.error e => (Except.error e, st)
        | Except.ok (doc, db2) => (Except.ok doc, { st with db := db2 })) := by
  refine ⟨?_, ?_, ?_⟩
  · intro env cfg doc b st; rfl
  · intro env cfg qid d st h
    unfold Assetsmodule.moduleUpdate
    cases hdb : dbUpdate st.db qid (inputPatch { d with path := none }) with
    | error e => simp [hdb]
    | ok v =>
      obtain ⟨doc, db2⟩ := v
      simp only [hdb]
      rw [show ({ d with path := none } : InputData).file = d.file from rfl, h]
      rfl
  · intro env cfg qid d st h
    unfold LibModule.moduleUpdate
    cases hdb : dbUpdate st.db qid (inputPatch d) with
    | error e => simp [hdb]
    | ok v =>
      obtain ⟨doc, db2⟩ := v
      simp only [hdb]
      rw [h]

/-- C10 witness: a file-less update of record `a1` setting only `title`
performs exactly the database merge — the filesystem and log are
untouched. -/
theorem c10_no_file_frame_witness :
    dTitle.file = none ∧
    Assetsmodule.moduleUpdate envClean cfgA "a1" dTitle stRun =
      (Except.ok { _id := "a1", title := some "t" },
       { fs := [("/tmp/up1", 5)], db := [{ _id := "a1", title := some "t" }],
         logs := [] }) := by
  constructor
  · rfl
  · rw [c10_no_file_frame.2.1 envClean cfgA "a1" dTitle stRun rfl]
    decide

end Assets
